/-
Verification of the alphaTalk stock-analysis pipeline against its
natural-language specification.

The Python sources are shallowly embedded in Lean 4:

* `quantTools.py`  — the counter-trend (Bollinger band) and trend-following
  (moving-average crossover) strategies.  Prices are modelled as rationals.
  A pandas rolling statistic whose window exceeds the available history is
  `NaN`; we model such a value as `Option ℚ` with `none` for `NaN`, and model
  Python's `NaN`-poisoned comparisons (`x <= NaN` is `False`) by boolean
  comparison functions that return `false` when either side is `none`.
  The floating-point square root used by `pandas.Series.std` is abstracted
  as an arbitrary function `ℚ → ℚ` supplied as a parameter; none of the
  verified properties depend on its values.

* `backend.py` `get_technical_indicators` — the RSI computation, where the
  gain/loss division can produce infinities, is modelled by an extended
  value type with `nan` and `inf` (IEEE semantics restricted to the
  non-negative quantities the code produces; numpy's negative zero only
  flips the sign of an intermediate infinity and never the reported RSI).

* `fundamentalTools.py` `calculate_financial_ratios` — the multi-source
  metric fusion.  Provider outputs are inputs of the embedding: partial maps
  from metric names to Python values (`number`, `None`, or the string
  `"N/A"`).

* `db.py` `AnalysisDB` — the analysis cache, a MongoDB collection modelled
  as a list of documents; `update_one` with `upsert=True` replaces the first
  matching document or appends.

* `kakao.py` — the `/message` read handler and the concurrent-refresh
  admission logic of `process_ticker_analysis_callback`, the latter as a
  small interleaving model whose atomic actions are separated at the
  `await` suspension points of the Python code.
-/
import Mathlib

namespace AlphaTalk

/-! ## Quant strategies (`quantTools.py`) -/

/-- Trading signal produced by the strategy functions. -/
inductive Signal where
  | BUY | SELL | HOLD | HOLD_BULLISH | HOLD_BEARISH
  deriving DecidableEq, Repr

/-- Errors of the strategy functions.  `noData` is the explicit
`{"error": "No data available"}` branch for an empty price series;
`indexError` is the `IndexError` raised by `iloc[-2]` on a one-element
series, caught by the surrounding `except` and returned as an error dict. -/
inductive QuantErr where
  | noData | indexError
  deriving DecidableEq, Repr

/-- The last `w` elements of `xs`, provided the series is long enough;
`none` models a pandas rolling window that has not yet filled
(`min_periods` defaults to the window size, giving `NaN`). -/
def windowLast (w : ℕ) (xs : List ℚ) : Option (List ℚ) :=
  if 1 ≤ w ∧ w ≤ xs.length then some (xs.drop (xs.length - w)) else none

/-- Last value of `series.rolling(window=w).mean()`: `NaN` (`none`) when
fewer than `w` observations exist. -/
def rollingMeanLast (w : ℕ) (xs : List ℚ) : Option ℚ :=
  (windowLast w xs).map (fun l => l.sum / (w : ℚ))

/-- Last value of the sample variance of the `w`-window
(`pandas` uses `ddof = 1`, so the denominator is `w - 1`;
for `w < 2` pandas reports `NaN`). -/
def rollingVarLast (w : ℕ) (xs : List ℚ) : Option ℚ :=
  (windowLast w xs).bind (fun l =>
    if 2 ≤ w then
      some (((l.map (fun x => (x - l.sum / (w : ℚ)) ^ 2)).sum) / ((w : ℚ) - 1))
    else none)

/-- Last value of `series.rolling(window=w).std()`; `sqrtF` abstracts the
floating-point square root. -/
def rollingStdLast (sqrtF : ℚ → ℚ) (w : ℕ) (xs : List ℚ) : Option ℚ :=
  (rollingVarLast w xs).map sqrtF

/-- Python comparison `a <= b` on possibly-`NaN` floats:
`False` whenever either side is `NaN`. -/
def oLe (a b : Option ℚ) : Bool :=
  match a, b with
  | some x, some y => x ≤ y
  | _, _ => false

/-- Python comparison `a >= b` on possibly-`NaN` floats. -/
def oGe (a b : Option ℚ) : Bool :=
  match a, b with
  | some x, some y => y ≤ x
  | _, _ => false

/-- Python comparison `a > b` on possibly-`NaN` floats. -/
def oGt (a b : Option ℚ) : Bool :=
  match a, b with
  | some x, some y => y < x
  | _, _ => false

/-- Python comparison `a < b` on possibly-`NaN` floats. -/
def oLt (a b : Option ℚ) : Bool :=
  match a, b with
  | some x, some y => x < y
  | _, _ => false

/-- Result dict of `getCounterTrendStrategy` in the success case. -/
structure CounterTrendResult where
  signal : Signal
  current_price : ℚ
  upper_band : Option ℚ
  lower_band : Option ℚ
  ma : Option ℚ
  deriving DecidableEq, Repr

/-- `QuantTools.getCounterTrendStrategy` (`quantTools.py` lines 13–45),
applied to the fetched close series.  The rolling window is the hard-coded
`20` of the source; `nDays` only controls how much history is fetched and
is not a parameter of the computation on the series.  Addition and
multiplication on band values propagate `NaN`. -/
def getCounterTrendStrategy (sqrtF : ℚ → ℚ) (kValue : ℚ) (closes : List ℚ) :
    Except QuantErr CounterTrendResult :=
  match closes.getLast? with
  | none => .error .noData
  | some current_price =>
    let ma := rollingMeanLast 20 closes
    let std := rollingStdLast sqrtF 20 closes
    let upper := ma.bind (fun m => std.map (fun s => m + kValue * s))
    let lower := ma.bind (fun m => std.map (fun s => m - kValue * s))
    let signal :=
      if oLe (some current_price) lower then Signal.BUY
      else if oGe (some current_price) upper then Signal.SELL
      else Signal.HOLD
    .ok { signal := signal, current_price := current_price,
          upper_band := upper, lower_band := lower, ma := ma }

/-- Result dict of `getTrendFollowingStrategy` in the success case. -/
structure TrendFollowingResult where
  signal : Signal
  ma_short : Option ℚ
  ma_long : Option ℚ
  current_price : ℚ
  deriving DecidableEq, Repr

/-- `QuantTools.getTrendFollowingStrategy` (`quantTools.py` lines 47–80)
applied to the fetched close series.  `iloc[-2]` of a rolling mean is the
rolling mean of the series without its final element. -/
def getTrendFollowingStrategy (shortPeriod longPeriod : ℕ) (closes : List ℚ) :
    Except QuantErr TrendFollowingResult :=
  match closes.getLast? with
  | none => .error .noData
  | some current_price =>
    if closes.length < 2 then .error .indexError
    else
      let currentShort := rollingMeanLast shortPeriod closes
      let currentLong := rollingMeanLast longPeriod closes
      let prevShort := rollingMeanLast shortPeriod closes.dropLast
      let prevLong := rollingMeanLast longPeriod closes.dropLast
      let signal :=
        if oLe prevShort prevLong && oGt currentShort currentLong then Signal.BUY
        else if oGe prevShort prevLong && oLt currentShort currentLong then Signal.SELL
        else if oGt currentShort currentLong then Signal.HOLD_BULLISH
        else Signal.HOLD_BEARISH
      .ok { signal := signal, ma_short := currentShort, ma_long := currentLong,
            current_price := current_price }

/-- The signal of a strategy outcome, absent when the strategy failed. -/
def signalOf (r : Except QuantErr TrendFollowingResult) : Option Signal :=
  match r with
  | .ok res => some res.signal
  | .error _ => none

/-- C6: on a series long enough for the 20-observation window (so the
rolling mean and std are defined), `counterTrend` reports the bands
`mean ± k·std` and its signal is BUY when the last close is `≤` the lower
band (boundary inclusive), SELL when it is `≥` the upper band (boundary
inclusive), and HOLD otherwise. -/
theorem counterTrend_signal_boundary_inclusive (sqrtF : ℚ → ℚ)
    (k price μ σ : ℚ) (closes : List ℚ)
    (hp : closes.getLast? = some price)
    (hμ : rollingMeanLast 20 closes = some μ)
    (hσ : rollingStdLast sqrtF 20 closes = some σ) :
    getCounterTrendStrategy sqrtF k closes =
      .ok { signal := if price ≤ μ - k * σ then .BUY
                      else if μ + k * σ ≤ price then .SELL
                      else .HOLD,
            current_price := price,
            upper_band := some (μ + k * σ),
            lower_band := some (μ - k * σ),
            ma := some μ } := by
  simp only [getCounterTrendStrategy, hp, hμ, hσ, Option.bind_some,
    Option.map_some, oLe, oGe, Option.some.injEq]
  by_cases h1 : price ≤ μ - k * σ <;>
    by_cases h2 : μ + k * σ ≤ price <;>
    simp [h1, h2]

/-- Witness for C6: twenty closes all equal to 10 with `k = 2`; the
variance is 0, both bands coincide with the mean, and the last close sits
exactly on the lower band, so the boundary-inclusive comparison yields
BUY. -/
theorem counterTrend_signal_boundary_inclusive_witness :
    getCounterTrendStrategy id 2 (List.replicate 20 (10 : ℚ)) =
      .ok { signal := .BUY, current_price := 10, upper_band := some 10,
            lower_band := some 10, ma := some 10 } := by
  have hsum : (List.replicate 20 (10 : ℚ)).sum = 200 := by
    simp [List.sum_replicate]
    norm_num
  have h := counterTrend_signal_boundary_inclusive id 2 10 10 0
      (List.replicate 20 (10 : ℚ))
      (by simp [List.getLast?_replicate])
      (by simp [rollingMeanLast, windowLast, hsum]; norm_num)
      (by simp [rollingStdLast, rollingVarLast, windowLast, hsum]; norm_num)
  rw [h]
  norm_num

/-- C7: with the four rolling means defined, `trendFollowing` signals BUY
exactly at a strict upward crossover (previous short ≤ previous long and
current short > current long), SELL exactly at the symmetric downward
crossover, and otherwise HOLD_BULLISH / HOLD_BEARISH by the current
ordering with equality counting as not-bullish; in particular if the short
and long means coincide both currently and previously the signal is
HOLD_BEARISH, never BUY or SELL. -/
theorem trendFollowing_crossover_only (shortPeriod longPeriod : ℕ)
    (closes : List ℚ) (cs cl ps pl : ℚ)
    (h2 : 2 ≤ closes.length)
    (hcs : rollingMeanLast shortPeriod closes = some cs)
    (hcl : rollingMeanLast longPeriod closes = some cl)
    (hps : rollingMeanLast shortPeriod closes.dropLast = some ps)
    (hpl : rollingMeanLast longPeriod closes.dropLast = some pl) :
    signalOf (getTrendFollowingStrategy shortPeriod longPeriod closes) =
      some (if ps ≤ pl ∧ cl < cs then .BUY
            else if pl ≤ ps ∧ cs < cl then .SELL
            else if cl < cs then .HOLD_BULLISH
            else .HOLD_BEARISH) ∧
    (cs = cl → ps = pl →
      signalOf (getTrendFollowingStrategy shortPeriod longPeriod closes) =
        some .HOLD_BEARISH) := by
  have hne : closes ≠ [] := by
    intro h
    rw [h] at h2
    simp at h2
  obtain ⟨price, hp⟩ := Option.isSome_iff_exists.mp
    (List.getLast?_isSome.mpr hne)
  have hmain :
      signalOf (getTrendFollowingStrategy shortPeriod longPeriod closes) =
        some (if ps ≤ pl ∧ cl < cs then .BUY
              else if pl ≤ ps ∧ cs < cl then .SELL
              else if cl < cs then .HOLD_BULLISH
              else .HOLD_BEARISH) := by
    have hlen : ¬ closes.length < 2 := by omega
    simp only [getTrendFollowingStrategy, hp, hlen, if_false, hcs, hcl,
      hps, hpl, oLe, oGe, oGt, oLt, signalOf, Bool.and_eq_true,
      decide_eq_true_eq]
  refine ⟨hmain, fun hcc hpp => ?_⟩
  rw [hmain, hcc, hpp]
  simp

/-- Witness for C7: a two-element constant series with one-day windows:
all four rolling means equal 1, so the tie-break gives HOLD_BEARISH. -/
theorem trendFollowing_crossover_only_witness :
    signalOf (getTrendFollowingStrategy 1 1 [1, 1]) =
      some .HOLD_BEARISH := by
  have h := trendFollowing_crossover_only 1 1 [1, 1] 1 1 1 1
      (by norm_num)
      (by simp [rollingMeanLast, windowLast])
      (by simp [rollingMeanLast, windowLast])
      (by simp [rollingMeanLast, windowLast])
      (by simp [rollingMeanLast, windowLast])
  exact h.2 rfl rfl

/-- C8 counterexample: a one-element close series (fewer than the
20 observations the rolling window needs) still produces a successful
HOLD signal (the bands are `NaN` and every `NaN` comparison is false),
not the claimed insufficient-history failure. -/
theorem counterTrend_short_series_counterexample :
    getCounterTrendStrategy id 2 [(5 : ℚ)] =
      .ok { signal := .HOLD, current_price := 5, upper_band := none,
            lower_band := none, ma := none } := by
  simp [getCounterTrendStrategy, rollingMeanLast, rollingStdLast,
    rollingVarLast, windowLast, oLe, oGe]

/-- C8 amended: `counterTrend` fails only on an empty series (the
`"No data available"` branch); on a nonempty series with fewer than 20
observations the bands are `NaN` (`none`), both band comparisons are
false, and the result is a successful HOLD with the last close as the
current price. -/
theorem counterTrend_insufficient_history (sqrtF : ℚ → ℚ) (k price : ℚ)
    (closes : List ℚ)
    (hp : closes.getLast? = some price)
    (hlt : closes.length < 20) :
    getCounterTrendStrategy sqrtF k closes =
      .ok { signal := .HOLD, current_price := price, upper_band := none,
            lower_band := none, ma := none } ∧
    getCounterTrendStrategy sqrtF k [] = .error .noData := by
  constructor
  · have hw : windowLast 20 closes = none := by
      simp only [windowLast]
      rw [if_neg]
      omega
    simp [getCounterTrendStrategy, hp, rollingMeanLast, rollingStdLast,
      rollingVarLast, hw, oLe, oGe]
  · simp [getCounterTrendStrategy]

/-- Witness for C8's amended statement: a two-element series. -/
theorem counterTrend_insufficient_history_witness :
    getCounterTrendStrategy id 2 [(3 : ℚ), 4] =
      .ok { signal := .HOLD, current_price := 4, upper_band := none,
            lower_band := none, ma := none } ∧
    getCounterTrendStrategy id 2 [] = .error .noData :=
  counterTrend_insufficient_history id 2 4 [3, 4] (by simp) (by norm_num)

/-! ## Metric fusion (`fundamentalTools.py` `calculate_financial_ratios`)

The fusion routine is embedded with the provider outputs as inputs:
`naver` and `yf` are the outcomes of `analyze_naver_financial_ratios` and
`calculate_financial_ratios_yfinance` (`none` for an error dict), and
`altRaw` / `dartRaw` abstract the per-metric field extraction of
`get_yfinance_alternative_metrics` / `get_dart_fallback_metrics` (what the
`yfinance` info dict or the DART statements would supply for a metric,
before those helpers restrict to the missing-metric list).  Quality scores
are exact rationals; the float score only ever reaches multiples of 100/9,
none of which is near the threshold 20, so the `< 20` test agrees with the
float computation. -/

/-- Metric names occurring in provider outputs and the fused map. -/
inductive Metric where
  | revenue | net_income | market_cap | pe_ratio | pb_ratio
  | roe | roa | debt_ratio | current_ratio
  | total_assets | shareholders_equity | gross_margin | asset_growth
  | operating_income
  deriving DecidableEq, Repr

/-- Enumeration of all metric names. -/
def Metric.all : List Metric :=
  [.revenue, .net_income, .market_cap, .pe_ratio, .pb_ratio,
   .roe, .roa, .debt_ratio, .current_ratio,
   .total_assets, .shareholders_equity, .gross_margin, .asset_growth,
   .operating_income]

theorem Metric.mem_all (m : Metric) : m ∈ Metric.all := by
  cases m <;> simp [Metric.all]

/-- The nine critical metrics (`fundamentalTools.py` lines 411–414). -/
def criticalMetrics : List Metric :=
  [.revenue, .net_income, .market_cap, .pe_ratio, .pb_ratio,
   .roe, .roa, .debt_ratio, .current_ratio]

/-- A Python value stored under a metric key: a number, `None`, or the
string `"N/A"`. -/
inductive PVal where
  | num (q : ℚ) | null | na
  deriving DecidableEq, Repr

/-- The guard `value is not None and value != 0 and value != "N/A"` of the
primary/secondary fill steps (lines 431, 450). -/
def PVal.isUsable : PVal → Bool
  | .num q => q != 0
  | .null => false
  | .na => false

/-- The weaker guard `value is not None and value != 0` of the fallback
fill steps (lines 471, 484): the `"N/A"` marker passes it. -/
def PVal.passesFallbackGuard : PVal → Bool
  | .num q => q != 0
  | .null => false
  | .na => true

/-- `metric not in dict or dict.get(metric) in [None, 0, "N/A"]`:
the metric is absent, or holds a sentinel value. -/
def absentOrSentinel : Option PVal → Bool
  | none => true
  | some (.num q) => q == 0
  | some .null => true
  | some .na => true

/-- A provider's output: a partial map from metric names to values. -/
def PMap := Metric → Option PVal

/-- The mutable `result` accumulator: the `financial_metrics` dict and the
`data_sources_used` list. -/
structure FuseState where
  metrics : Metric → Option PVal
  sources : List String

/-- The initial `result` structure (lines 402–408). -/
def initState : FuseState := ⟨fun _ => none, []⟩

/-- Step 1 (lines 416–436): for Korean tickers, seed the metric dict from
the Naver result, keeping only values that are not `None`, `0` or
`"N/A"`; record the source on any non-error Naver outcome. -/
def step1 (isKorean : Bool) (naver : Option PMap) : FuseState :=
  match isKorean, naver with
  | true, some nv =>
    ⟨fun m => match nv m with
      | some v => if v.isUsable then some v else none
      | none => none,
     ["naver_finance"]⟩
  | _, _ => initState

/-- The per-metric fill rule of step 2 (lines 447–451): write the incoming
value only when the current entry is absent or a sentinel and the incoming
value is itself usable. -/
def fillFrom (cur incoming : Option PVal) : Option PVal :=
  match incoming with
  | some v => if absentOrSentinel cur && v.isUsable then some v else cur
  | none => cur

/-- Step 2 (lines 438–456): fill missing or sentinel-valued metrics from
the yfinance result (every key but `source` is iterated). -/
def step2 (yf : Option PMap) (s : FuseState) : FuseState :=
  match yf with
  | some yfm => ⟨fun m => fillFrom (s.metrics m) (yfm m), s.sources ++ ["yfinance"]⟩
  | none => s

/-- `missing_critical` (lines 459–461): critical metrics absent or holding
a sentinel. -/
def missingCriticals (s : FuseState) : List Metric :=
  criticalMetrics.filter (fun m => absentOrSentinel (s.metrics m))

/-- `get_yfinance_alternative_metrics` (lines 514–551): the returned dict
is keyed only by metrics of the missing list for which the info lookup
produced something. -/
def altMetrics (altRaw : PMap) (missing : List Metric) : PMap :=
  fun m => if m ∈ missing then altRaw m else none

/-- `get_dart_fallback_metrics` (lines 553–590): only `revenue` and
`net_income` are ever mapped, and only when still missing. -/
def dartMetrics (dartRaw : PMap) (missing : List Metric) : PMap :=
  fun m =>
    if m ∈ missing ∧ (m = .revenue ∨ m = .net_income) then dartRaw m else none

/-- The shared body of fallback steps 3 and 4 (lines 468–475 and 481–488):
if the fallback dict is nonempty, record the source and write every entry
whose value is not `None` and not `0` (the `"N/A"` marker passes this
guard!), removing written metrics from the missing list. -/
def fallbackFill (prov : PMap) (srcName : String) (s : FuseState)
    (missing : List Metric) : FuseState × List Metric :=
  if missing.any (fun m => (prov m).isSome) then
    (⟨fun m => match prov m with
        | some v => if v.passesFallbackGuard then some v else s.metrics m
        | none => s.metrics m,
      s.sources ++ [srcName]⟩,
     missing.filter (fun m => !((prov m).any PVal.passesFallbackGuard)))
  else (s, missing)

/-- Step 3 (lines 463–475): alternative yfinance info extraction for the
critical metrics still missing. -/
def step3 (altRaw : PMap) (s : FuseState) (missing : List Metric) :
    FuseState × List Metric :=
  if missing.isEmpty then (s, missing)
  else fallbackFill (altMetrics altRaw missing) "yfinance_alternative" s missing

/-- Step 4 (lines 477–488): DART fallback, for Korean tickers with an API
key and remaining missing metrics only. -/
def step4 (isKorean hasDartKey : Bool) (dartRaw : PMap) (s : FuseState)
    (missing : List Metric) : FuseState × List Metric :=
  if isKorean && !missing.isEmpty && hasDartKey then
    fallbackFill (dartMetrics dartRaw missing) "dart_api" s missing
  else (s, missing)

/-- `filled_metrics` (lines 492–493): the number of critical metrics
present with a non-sentinel value. -/
def filledCriticalCount (s : FuseState) : ℕ :=
  criticalMetrics.countP (fun m => !(absentOrSentinel (s.metrics m)))

/-- `data_quality_score` (line 494). -/
def qualityScore (s : FuseState) : ℚ :=
  (filledCriticalCount s : ℚ) / (criticalMetrics.length : ℚ) * 100

/-- `not result["financial_metrics"]`: the metric dict is empty. -/
def metricsEmpty (f : Metric → Option PVal) : Bool :=
  Metric.all.all (fun m => (f m).isNone)

/-- The usable outcome of the fusion. -/
structure FusionResult where
  metrics : Metric → Option PVal
  sources : List String
  missing : List Metric
  score : ℚ

/-- The insufficient-data error dict (lines 506–510): attempted sources,
missing critical metrics, and the quality score embedded in the message. -/
structure FusionError where
  attempted : List String
  missing : List Metric
  score : ℚ

/-- The `result` state after the primary (Naver) and secondary (yfinance)
fill steps. -/
def fuseAfterProviders (isKorean : Bool) (naver yf : Option PMap) :
    FuseState :=
  step2 yf (step1 isKorean naver)

/-- The state and missing list after the alternative-extraction step 3. -/
def fuseAfterAlt (isKorean : Bool) (naver yf : Option PMap) (altRaw : PMap) :
    FuseState × List Metric :=
  step3 altRaw (fuseAfterProviders isKorean naver yf)
    (missingCriticals (fuseAfterProviders isKorean naver yf))

/-- The state and missing list after the DART fallback step 4 (the end of
the fill-in chain). -/
def fuseFinal (isKorean hasDartKey : Bool) (naver yf : Option PMap)
    (altRaw dartRaw : PMap) : FuseState × List Metric :=
  step4 isKorean hasDartKey dartRaw
    (fuseAfterAlt isKorean naver yf altRaw).1
    (fuseAfterAlt isKorean naver yf altRaw).2

/-- `FundamentalAnalyzer.calculate_financial_ratios`
(`fundamentalTools.py` lines 397–512). -/
def calculate_financial_ratios (isKorean : Bool) (naver yf : Option PMap)
    (altRaw dartRaw : PMap) (hasDartKey : Bool) :
    Except FusionError FusionResult :=
  let p4 := fuseFinal isKorean hasDartKey naver yf altRaw dartRaw
  let score := qualityScore p4.1
  if metricsEmpty p4.1.metrics || score < 20 then
    .error ⟨p4.1.sources, p4.2, score⟩
  else
    .ok ⟨p4.1.metrics, p4.1.sources, p4.2, score⟩

/-- The fused value of a metric, absent when the fusion failed. -/
def fusedMetric (o : Except FusionError FusionResult) (m : Metric) :
    Option (Option PVal) :=
  match o with
  | .ok r => some (r.metrics m)
  | .error _ => none

/-- Whether the fusion returned the insufficient-data error. -/
def fusionFailed (o : Except FusionError FusionResult) : Bool :=
  match o with
  | .ok _ => false
  | .error _ => true

/-- The carried error information of a failed fusion. -/
def fusionErrorInfo (o : Except FusionError FusionResult) :
    Option FusionError :=
  match o with
  | .ok _ => none
  | .error e => some e

/-! ### Fusion lemmas -/

theorem fillFrom_of_not_sentinel (cur v : Option PVal)
    (h : absentOrSentinel cur = false) : fillFrom cur v = cur := by
  cases v <;> simp [fillFrom, h]

theorem step1_usable (isKorean : Bool) (naver : Option PMap) (m : Metric)
    (v : PVal) (h : (step1 isKorean naver).metrics m = some v) :
    v.isUsable = true := by
  cases isKorean <;> cases naver <;>
    simp only [step1, initState] at h
  · exact absurd h (by simp)
  · exact absurd h (by simp)
  · exact absurd h (by simp)
  · rename_i nv
    cases hnv : nv m with
    | none => rw [hnv] at h; exact absurd h (by simp)
    | some w =>
      rw [hnv] at h
      by_cases hw : w.isUsable <;> simp [hw] at h
      rw [← h]; exact hw

theorem step2_usable (yf : Option PMap) (s : FuseState) (m : Metric)
    (v : PVal)
    (hs : ∀ w, s.metrics m = some w → w.isUsable = true)
    (h : (step2 yf s).metrics m = some v) : v.isUsable = true := by
  cases yf with
  | none => exact hs v h
  | some yfm =>
    simp only [step2] at h
    cases hy : yfm m with
    | none => rw [hy, fillFrom] at h; exact hs v h
    | some w =>
      rw [hy, fillFrom] at h
      by_cases hc : absentOrSentinel (s.metrics m) && w.isUsable
      · rw [if_pos hc] at h
        cases h
        exact (Bool.and_eq_true ..|>.mp hc).2
      · rw [if_neg hc] at h
        exact hs v h

theorem step2_preserves (yf : Option PMap) (s : FuseState) (m : Metric)
    (h : absentOrSentinel (s.metrics m) = false) :
    (step2 yf s).metrics m = s.metrics m := by
  cases yf <;> simp [step2, fillFrom_of_not_sentinel _ _ h]

theorem fallbackFill_preserves (prov : PMap) (srcName : String)
    (s : FuseState) (missing : List Metric) (m : Metric)
    (hm : ∀ v, prov m = some v → absentOrSentinel (s.metrics m) = true)
    (h : absentOrSentinel (s.metrics m) = false) :
    (fallbackFill prov srcName s missing).1.metrics m = s.metrics m := by
  have hnone : prov m = none := by
    cases hp : prov m with
    | none => rfl
    | some v => rw [hm v hp] at h; exact absurd h (by simp)
  unfold fallbackFill
  split
  · simp [hnone]
  · rfl

theorem fallbackFill_no_nullzero (prov : PMap) (srcName : String)
    (s : FuseState) (missing : List Metric) (m : Metric) (v : PVal)
    (hs : ∀ w, s.metrics m = some w → w ≠ .null ∧ w ≠ .num 0)
    (h : (fallbackFill prov srcName s missing).1.metrics m = some v) :
    v ≠ .null ∧ v ≠ .num 0 := by
  unfold fallbackFill at h
  split at h
  · simp only at h
    cases hp : prov m with
    | none => rw [hp] at h; exact hs v h
    | some w =>
      simp only [hp] at h
      by_cases hw : w.passesFallbackGuard
      · rw [if_pos hw] at h
        cases h
        cases v with
        | num q =>
          simp only [PVal.passesFallbackGuard, bne_iff_ne, ne_eq] at hw
          exact ⟨by simp, by simp [hw]⟩
        | null => simp [PVal.passesFallbackGuard] at hw
        | na => exact ⟨by simp, by simp⟩
      · rw [if_neg hw] at h
        exact hs v h
  · exact hs v h

theorem fallbackFill_missing_spec (prov : PMap) (srcName : String)
    (s : FuseState) (missing : List Metric) (m : Metric)
    (h : m ∈ (fallbackFill prov srcName s missing).2) :
    m ∈ missing ∧ (fallbackFill prov srcName s missing).1.metrics m = s.metrics m := by
  unfold fallbackFill at h ⊢
  split at h
  · rename_i hc
    rw [if_pos hc]
    simp only [List.mem_filter] at h
    refine ⟨h.1, ?_⟩
    simp only
    cases hp : prov m with
    | none => rfl
    | some w =>
      have h2 := h.2
      rw [hp] at h2
      simp only [Option.any_some, Bool.not_eq_eq_eq_not, Bool.not_true] at h2
      simp [h2]
  · rename_i hc
    rw [if_neg hc]
    exact ⟨h, rfl⟩

theorem step3_preserves (altRaw : PMap) (s : FuseState)
    (missing : List Metric) (m : Metric)
    (hmiss : ∀ m' ∈ missing, absentOrSentinel (s.metrics m') = true)
    (h : absentOrSentinel (s.metrics m) = false) :
    (step3 altRaw s missing).1.metrics m = s.metrics m := by
  unfold step3
  split
  · rfl
  · refine fallbackFill_preserves _ _ _ _ _ (fun v hv => ?_) h
    unfold altMetrics at hv
    by_cases hm : m ∈ missing
    · exact hmiss m hm
    · rw [if_neg hm] at hv; exact absurd hv (by simp)

theorem step3_missing_spec (altRaw : PMap) (s : FuseState)
    (missing : List Metric) (m : Metric)
    (h : m ∈ (step3 altRaw s missing).2) :
    m ∈ missing ∧ (step3 altRaw s missing).1.metrics m = s.metrics m := by
  unfold step3 at h ⊢
  split at h
  · rename_i hc
    rw [if_pos hc]
    exact ⟨h, rfl⟩
  · rename_i hc
    rw [if_neg hc]
    exact fallbackFill_missing_spec _ _ _ _ _ h

theorem step4_preserves (isKorean hasDartKey : Bool) (dartRaw : PMap)
    (s : FuseState) (missing : List Metric) (m : Metric)
    (hmiss : ∀ m' ∈ missing, absentOrSentinel (s.metrics m') = true)
    (h : absentOrSentinel (s.metrics m) = false) :
    (step4 isKorean hasDartKey dartRaw s missing).1.metrics m = s.metrics m := by
  unfold step4
  split
  · refine fallbackFill_preserves _ _ _ _ _ (fun v hv => ?_) h
    unfold dartMetrics at hv
    by_cases hm : m ∈ missing ∧ (m = .revenue ∨ m = .net_income)
    · exact hmiss m hm.1
    · rw [if_neg hm] at hv; exact absurd hv (by simp)
  · rfl

theorem filledCriticalCount_mono (s s' : FuseState)
    (h : ∀ m, absentOrSentinel (s.metrics m) = false →
      s'.metrics m = s.metrics m) :
    filledCriticalCount s ≤ filledCriticalCount s' := by
  unfold filledCriticalCount
  refine List.countP_mono_left (fun m _ hm => ?_)
  simp only [Bool.not_eq_eq_eq_not, Bool.not_true] at hm ⊢
  rw [h m hm]
  exact hm

theorem qualityScore_mono (s s' : FuseState)
    (h : filledCriticalCount s ≤ filledCriticalCount s') :
    qualityScore s ≤ qualityScore s' := by
  unfold qualityScore
  have : (filledCriticalCount s : ℚ) ≤ (filledCriticalCount s' : ℚ) := by
    exact_mod_cast h
  have hlen : (0 : ℚ) < (criticalMetrics.length : ℚ) := by
    simp [criticalMetrics]
  gcongr

theorem usable_not_sentinel (v : PVal) (h : v.isUsable = true) :
    absentOrSentinel (some v) = false ∧ v ≠ .null ∧ v ≠ .num 0 := by
  cases v with
  | num q =>
    simp only [PVal.isUsable, bne_iff_ne, ne_eq] at h
    exact ⟨by simp [absentOrSentinel, h], by simp, by simp [h]⟩
  | null => simp [PVal.isUsable] at h
  | na => simp [PVal.isUsable] at h

theorem missingCriticals_sentinel (s : FuseState) (m : Metric)
    (h : m ∈ missingCriticals s) : absentOrSentinel (s.metrics m) = true :=
  (List.mem_filter.mp h).2

theorem fuseAfterProviders_usable (isKorean : Bool) (naver yf : Option PMap)
    (m : Metric) (v : PVal)
    (h : (fuseAfterProviders isKorean naver yf).metrics m = some v) :
    v.isUsable = true :=
  step2_usable yf (step1 isKorean naver) m v
    (fun w hw => step1_usable isKorean naver m w hw) h

theorem fuseAfterAlt_preserves (isKorean : Bool) (naver yf : Option PMap)
    (altRaw : PMap) (m : Metric)
    (h : absentOrSentinel ((fuseAfterProviders isKorean naver yf).metrics m)
      = false) :
    (fuseAfterAlt isKorean naver yf altRaw).1.metrics m =
      (fuseAfterProviders isKorean naver yf).metrics m :=
  step3_preserves altRaw (fuseAfterProviders isKorean naver yf) _ m
    (fun m' hm' => missingCriticals_sentinel _ m' hm') h

theorem fuseAfterAlt_missing_sentinel (isKorean : Bool)
    (naver yf : Option PMap) (altRaw : PMap) (m : Metric)
    (h : m ∈ (fuseAfterAlt isKorean naver yf altRaw).2) :
    absentOrSentinel ((fuseAfterAlt isKorean naver yf altRaw).1.metrics m)
      = true := by
  obtain ⟨hmem, heq⟩ := step3_missing_spec altRaw
    (fuseAfterProviders isKorean naver yf) _ m h
  unfold fuseAfterAlt
  rw [heq]
  exact missingCriticals_sentinel _ m hmem

theorem fuseFinal_preserves (isKorean hasDartKey : Bool)
    (naver yf : Option PMap) (altRaw dartRaw : PMap) (m : Metric)
    (h : absentOrSentinel ((fuseAfterAlt isKorean naver yf altRaw).1.metrics m)
      = false) :
    (fuseFinal isKorean hasDartKey naver yf altRaw dartRaw).1.metrics m =
      (fuseAfterAlt isKorean naver yf altRaw).1.metrics m :=
  step4_preserves isKorean hasDartKey dartRaw _ _ m
    (fun m' hm' => fuseAfterAlt_missing_sentinel isKorean naver yf altRaw m' hm') h

theorem step3_no_nullzero (altRaw : PMap) (s : FuseState)
    (missing : List Metric) (m : Metric) (v : PVal)
    (hs : ∀ w, s.metrics m = some w → w ≠ .null ∧ w ≠ .num 0)
    (h : (step3 altRaw s missing).1.metrics m = some v) :
    v ≠ .null ∧ v ≠ .num 0 := by
  unfold step3 at h
  split at h
  · exact hs v h
  · exact fallbackFill_no_nullzero _ _ _ _ _ _ hs h

theorem step4_no_nullzero (isKorean hasDartKey : Bool) (dartRaw : PMap)
    (s : FuseState) (missing : List Metric) (m : Metric) (v : PVal)
    (hs : ∀ w, s.metrics m = some w → w ≠ .null ∧ w ≠ .num 0)
    (h : (step4 isKorean hasDartKey dartRaw s missing).1.metrics m = some v) :
    v ≠ .null ∧ v ≠ .num 0 := by
  unfold step4 at h
  split at h
  · exact fallbackFill_no_nullzero _ _ _ _ _ _ hs h
  · exact hs v h

/-! ### Claim theorems for the fusion engine -/

/-- C1 counterexample: with the Korean path off, yfinance supplying
`revenue` and `net_income`, and the alternative-extraction info holding the
string `"N/A"` for `pe_ratio`, the fusion succeeds and its metric map
stores the `"N/A"` sentinel under `pe_ratio`: the fallback fill's guard
(`value is not None and value != 0`, line 471) lets an incoming sentinel
through, contradicting the claim that an incoming sentinel value is never
written. -/
theorem fusion_sentinel_written_counterexample :
    fusedMetric
      (calculate_financial_ratios false none
        (some (fun m => match m with
          | .revenue => some (.num 100)
          | .net_income => some (.num 50)
          | _ => none))
        (fun m => match m with | .pe_ratio => some .na | _ => none)
        (fun _ => none) false)
      .pe_ratio = some (some .na) := by
  norm_num [calculate_financial_ratios, fuseFinal, fuseAfterAlt,
    fuseAfterProviders, step1, step2, step3, step4, fallbackFill,
    altMetrics, dartMetrics, missingCriticals, criticalMetrics, fillFrom,
    absentOrSentinel, qualityScore, filledCriticalCount, metricsEmpty,
    Metric.all, initState, fusedMetric, PVal.isUsable,
    PVal.passesFallbackGuard, List.filter_cons, List.countP_cons,
    List.any_cons, List.all_cons]

/-- C1 amended: fusion is first-writer-wins per metric and the
primary/secondary steps never write a sentinel — every value present after
the Naver/yfinance steps is non-sentinel and survives unchanged to the end
of the chain — and no step ever writes `None` or `0`; however the
alternative-extraction and DART fallback steps guard only against `None`
and `0`, so an incoming `"N/A"` marker there is written (see the
counterexample), which is the sole deviation from the claim as stated. -/
theorem fusion_first_writer_wins (isKorean hasDartKey : Bool)
    (naver yf : Option PMap) (altRaw dartRaw : PMap) :
    (∀ m v, (fuseAfterProviders isKorean naver yf).metrics m = some v →
      v.isUsable = true) ∧
    (∀ m v, (step1 isKorean naver).metrics m = some v →
      (fuseAfterProviders isKorean naver yf).metrics m = some v) ∧
    (∀ m v, (fuseAfterProviders isKorean naver yf).metrics m = some v →
      (fuseFinal isKorean hasDartKey naver yf altRaw dartRaw).1.metrics m
        = some v) ∧
    (∀ m v, v.isUsable = true →
      (fuseAfterAlt isKorean naver yf altRaw).1.metrics m = some v →
      (fuseFinal isKorean hasDartKey naver yf altRaw dartRaw).1.metrics m
        = some v) ∧
    (∀ m v,
      (fuseFinal isKorean hasDartKey naver yf altRaw dartRaw).1.metrics m
        = some v → v ≠ .null ∧ v ≠ .num 0) := by
  refine ⟨fun m v h => fuseAfterProviders_usable isKorean naver yf m v h,
    fun m v h => ?_, fun m v h => ?_, fun m v hv h => ?_, fun m v h => ?_⟩
  · have hu := step1_usable isKorean naver m v h
    have hns := (usable_not_sentinel v hu).1
    unfold fuseAfterProviders
    rw [step2_preserves yf _ m (by rw [h]; exact hns)]
    exact h
  · have hu := fuseAfterProviders_usable isKorean naver yf m v h
    have hns := (usable_not_sentinel v hu).1
    have h3 : (fuseAfterAlt isKorean naver yf altRaw).1.metrics m = some v := by
      rw [fuseAfterAlt_preserves isKorean naver yf altRaw m (by rw [h]; exact hns)]
      exact h
    rw [fuseFinal_preserves isKorean hasDartKey naver yf altRaw dartRaw m
      (by rw [h3]; exact hns)]
    exact h3
  · have hns := (usable_not_sentinel v hv).1
    rw [fuseFinal_preserves isKorean hasDartKey naver yf altRaw dartRaw m
      (by rw [h]; exact hns)]
    exact h
  · refine step4_no_nullzero isKorean hasDartKey dartRaw _ _ m v
      (fun w hw => ?_) h
    exact step3_no_nullzero altRaw _ _ m w
      (fun u hu => (usable_not_sentinel u
        (fuseAfterProviders_usable isKorean naver yf m u hu)).2) hw

/-- Example primary provider used by the C1 witness:
`pe_ratio = 10` and `roe = 0`. -/
def naverExample : PMap := fun m => match m with
  | .pe_ratio => some (.num 10)
  | .roe => some (.num 0)
  | _ => none

/-- Example secondary provider used by the C1 witness:
`pe_ratio = 99` and `roe = 12.3`. -/
def yfExample : PMap := fun m => match m with
  | .pe_ratio => some (.num 99)
  | .roe => some (.num (123 / 10))
  | _ => none

/-- Witness for C1's amended statement, on the claim's own examples:
primary `pe_ratio = 10` then secondary `pe_ratio = 99` fuses to `10`
(never overwritten), and primary `roe = 0` (a sentinel, treated as
missing) then secondary `roe = 12.3` fuses to `12.3`, both surviving to
the end of the chain. -/
theorem fusion_first_writer_wins_witness :
    (fuseFinal true false (some naverExample) (some yfExample)
      (fun _ => none) (fun _ => none)).1.metrics .pe_ratio
        = some (.num 10) ∧
    (fuseFinal true false (some naverExample) (some yfExample)
      (fun _ => none) (fun _ => none)).1.metrics .roe
        = some (.num (123 / 10)) := by
  have h := fusion_first_writer_wins true false (some naverExample)
    (some yfExample) (fun _ => none) (fun _ => none)
  refine ⟨h.2.2.1 .pe_ratio (.num 10) ?_, h.2.2.1 .roe (.num (123 / 10)) ?_⟩
  · norm_num [fuseAfterProviders, step1, step2, fillFrom, naverExample,
      yfExample, PVal.isUsable, absentOrSentinel]
  · norm_num [fuseAfterProviders, step1, step2, fillFrom, naverExample,
      yfExample, PVal.isUsable, absentOrSentinel]

/-- C2: the quality score is the filled-critical count out of 9 times 100;
the fusion returns the insufficient-data failure exactly when the metric
dict is empty or the score is below 20; the failure carries the attempted
source list and the missing-metric list; and when every provider fails the
result is that failure with score 0 and all nine critical metrics
missing. -/
theorem fusion_insufficient_data_failure (isKorean hasDartKey : Bool)
    (naver yf : Option PMap) (altRaw dartRaw : PMap) :
    (qualityScore (fuseFinal isKorean hasDartKey naver yf altRaw dartRaw).1 =
      (filledCriticalCount
        (fuseFinal isKorean hasDartKey naver yf altRaw dartRaw).1 : ℚ)
        / 9 * 100) ∧
    (fusionFailed
      (calculate_financial_ratios isKorean naver yf altRaw dartRaw hasDartKey)
      = (metricsEmpty
          (fuseFinal isKorean hasDartKey naver yf altRaw dartRaw).1.metrics
        || decide (qualityScore
          (fuseFinal isKorean hasDartKey naver yf altRaw dartRaw).1 < 20))) ∧
    (fusionErrorInfo
      (calculate_financial_ratios isKorean naver yf altRaw dartRaw hasDartKey)
      = if (metricsEmpty
            (fuseFinal isKorean hasDartKey naver yf altRaw dartRaw).1.metrics
         || decide (qualityScore
              (fuseFinal isKorean hasDartKey naver yf altRaw dartRaw).1 < 20)) = true
        then some ⟨(fuseFinal isKorean hasDartKey naver yf altRaw dartRaw).1.sources,
                   (fuseFinal isKorean hasDartKey naver yf altRaw dartRaw).2,
                   qualityScore (fuseFinal isKorean hasDartKey naver yf altRaw dartRaw).1⟩
        else none) ∧
    (calculate_financial_ratios isKorean none none (fun _ => none)
      (fun _ => none) hasDartKey = .error ⟨[], criticalMetrics, 0⟩) := by
  refine ⟨?_, ?_, ?_, ?_⟩
  · unfold qualityScore
    norm_num [criticalMetrics]
  · simp only [calculate_financial_ratios]
    rw [apply_ite fusionFailed]
    by_cases h : (metricsEmpty (fuseFinal isKorean hasDartKey naver yf altRaw dartRaw).1.metrics
          || decide (qualityScore (fuseFinal isKorean hasDartKey naver yf altRaw dartRaw).1 < 20)) = true
    · simp [fusionFailed, h]
    · rw [Bool.not_eq_true] at h
      simp [fusionFailed, h]
  · simp only [calculate_financial_ratios]
    rw [apply_ite fusionErrorInfo]
    by_cases h : (metricsEmpty (fuseFinal isKorean hasDartKey naver yf altRaw dartRaw).1.metrics
          || decide (qualityScore (fuseFinal isKorean hasDartKey naver yf altRaw dartRaw).1 < 20)) = true
    · simp [fusionErrorInfo, h]
    · simp [fusionErrorInfo, h]
  · cases isKorean <;> cases hasDartKey <;>
      norm_num [calculate_financial_ratios, fuseFinal, fuseAfterAlt,
        fuseAfterProviders, step1, step2, step3, step4, fallbackFill,
        altMetrics, dartMetrics, missingCriticals, criticalMetrics, fillFrom,
        absentOrSentinel, qualityScore, filledCriticalCount, metricsEmpty,
        Metric.all, initState, List.filter_cons, List.countP_cons,
        List.any_cons, List.all_cons]

/-- C3: along the fallback chain (primary seed → secondary fill →
alternative extraction → regulatory-filing fallback) the number of filled
critical metrics, and with it the quality score, never decreases: each
step only adds metrics, and a metric once filled with a non-sentinel value
is never removed or degraded. -/
theorem fusion_quality_monotone (isKorean hasDartKey : Bool)
    (naver yf : Option PMap) (altRaw dartRaw : PMap) :
    (filledCriticalCount (step1 isKorean naver) ≤
      filledCriticalCount (fuseAfterProviders isKorean naver yf) ∧
     filledCriticalCount (fuseAfterProviders isKorean naver yf) ≤
      filledCriticalCount (fuseAfterAlt isKorean naver yf altRaw).1 ∧
     filledCriticalCount (fuseAfterAlt isKorean naver yf altRaw).1 ≤
      filledCriticalCount
        (fuseFinal isKorean hasDartKey naver yf altRaw dartRaw).1) ∧
    (qualityScore (step1 isKorean naver) ≤
      qualityScore (fuseAfterProviders isKorean naver yf) ∧
     qualityScore (fuseAfterProviders isKorean naver yf) ≤
      qualityScore (fuseAfterAlt isKorean naver yf altRaw).1 ∧
     qualityScore (fuseAfterAlt isKorean naver yf altRaw).1 ≤
      qualityScore
        (fuseFinal isKorean hasDartKey naver yf altRaw dartRaw).1) := by
  have h12 := filledCriticalCount_mono (step1 isKorean naver)
    (fuseAfterProviders isKorean naver yf)
    (fun m hm => step2_preserves yf (step1 isKorean naver) m hm)
  have h23 := filledCriticalCount_mono (fuseAfterProviders isKorean naver yf)
    (fuseAfterAlt isKorean naver yf altRaw).1
    (fun m hm => fuseAfterAlt_preserves isKorean naver yf altRaw m hm)
  have h34 := filledCriticalCount_mono (fuseAfterAlt isKorean naver yf altRaw).1
    (fuseFinal isKorean hasDartKey naver yf altRaw dartRaw).1
    (fun m hm => fuseFinal_preserves isKorean hasDartKey naver yf altRaw dartRaw m hm)
  exact ⟨⟨h12, h23, h34⟩,
    qualityScore_mono _ _ h12, qualityScore_mono _ _ h23,
    qualityScore_mono _ _ h34⟩

/-! ## Analysis cache (`db.py` `AnalysisDB`) and the `/message` read path
(`kakao.py` `get_message`)

The MongoDB `analyses` collection is a list of documents.  `update_one`
with filter `{"ticker": ticker.upper()}`, update `{"$set": document}` and
`upsert=True` sets every field of `document` on the first matching
document, or inserts `document` when none matches; since `document` lists
every field of the schema (`db.py` lines 149–157), the matched document is
replaced wholesale. -/

/-- Python's `str.upper()` on the character list (tickers are ASCII, for
which this agrees with any Unicode-aware uppercasing). -/
def pyUpper (s : String) : String := ⟨s.data.map Char.toUpper⟩

/-- Python's `str.strip()`: remove leading and trailing whitespace. -/
def pyStrip (s : String) : String :=
  ⟨((s.data.dropWhile Char.isWhitespace).reverse.dropWhile
      Char.isWhitespace).reverse⟩

/-- A stored analysis document (the full schema written by
`save_analysis`). -/
structure AnalysisDoc where
  ticker : String
  timestamp : ℕ
  quant_analysis : String
  fundamental_analysis : String
  news_analysis : String
  final_recommendation : String
  error : Option String
  deriving DecidableEq, Repr

/-- The `analysis_data` dict passed to `save_analysis`; absent keys fall
back to `""` (or `None` for `error`) via `.get`. -/
structure AnalysisData where
  quant : Option String
  fundamental : Option String
  news : Option String
  final : Option String
  error : Option String
  deriving DecidableEq, Repr

/-- The document built by `save_analysis` (`db.py` lines 149–157): ticker
uppercased, current timestamp, every text field defaulted to `""`, error
defaulted to `None`. -/
def mkDocument (ticker : String) (now : ℕ) (d : AnalysisData) : AnalysisDoc :=
  { ticker := pyUpper ticker
    timestamp := now
    quant_analysis := d.quant.getD ""
    fundamental_analysis := d.fundamental.getD ""
    news_analysis := d.news.getD ""
    final_recommendation := d.final.getD ""
    error := d.error }

/-- `update_one(filter, {"$set": document}, upsert=True)` where `document`
carries every schema field: replace the first document matching the ticker
key, or append when none matches. -/
def updateOneUpsert (coll : List AnalysisDoc) (tickerKey : String)
    (doc : AnalysisDoc) : List AnalysisDoc :=
  match coll with
  | [] => [doc]
  | d :: rest =>
    if d.ticker = tickerKey then doc :: rest
    else d :: updateOneUpsert rest tickerKey doc

/-- `AnalysisDB.save_analysis` (`db.py` lines 146–167). -/
def save_analysis (ticker : String) (d : AnalysisData) (now : ℕ)
    (coll : List AnalysisDoc) : List AnalysisDoc :=
  updateOneUpsert coll (pyUpper ticker) (mkDocument ticker now d)

/-- The dict returned by `get_analysis` in the found case
(`db.py` lines 179–187). -/
structure AnalysisRecord where
  timestamp : ℕ
  quant : String
  fundamental : String
  news : String
  final : String
  error : Option String
  deriving DecidableEq, Repr

/-- `AnalysisDB.get_analysis` (`db.py` lines 169–191): `find_one` on the
uppercased ticker with `timestamp >= now - max_age_hours*3600`; `None`
when no such document exists. -/
def get_analysis (ticker : String) (maxAgeHours : ℕ) (now : ℕ)
    (coll : List AnalysisDoc) : Option AnalysisRecord :=
  match coll.find? (fun doc =>
      doc.ticker == pyUpper ticker
        && now - maxAgeHours * 3600 ≤ doc.timestamp) with
  | some doc => some
      { timestamp := doc.timestamp
        quant := doc.quant_analysis
        fundamental := doc.fundamental_analysis
        news := doc.news_analysis
        final := doc.final_recommendation
        error := doc.error }
  | none => none

/-- At most one stored document per ticker string. -/
def atMostOnePerTicker (coll : List AnalysisDoc) : Prop :=
  coll.Pairwise (fun a b => a.ticker ≠ b.ticker)

theorem mem_updateOneUpsert (coll : List AnalysisDoc) (key : String)
    (doc x : AnalysisDoc) (h : x ∈ updateOneUpsert coll key doc) :
    x ∈ coll ∨ x = doc := by
  induction coll with
  | nil =>
    simp only [updateOneUpsert, List.mem_singleton] at h
    exact Or.inr h
  | cons d rest ih =>
    simp only [updateOneUpsert] at h
    split at h
    · rcases List.mem_cons.mp h with h | h
      · exact Or.inr h
      · exact Or.inl (List.mem_cons_of_mem d h)
    · rcases List.mem_cons.mp h with h | h
      · exact Or.inl (h ▸ List.mem_cons_self d rest)
      · rcases ih h with h | h
        · exact Or.inl (List.mem_cons_of_mem d h)
        · exact Or.inr h

theorem updateOneUpsert_pairwise (coll : List AnalysisDoc) (key : String)
    (doc : AnalysisDoc) (hdoc : doc.ticker = key)
    (h : atMostOnePerTicker coll) :
    atMostOnePerTicker (updateOneUpsert coll key doc) := by
  induction coll with
  | nil => simp [updateOneUpsert, atMostOnePerTicker]
  | cons d rest ih =>
    rw [atMostOnePerTicker, List.pairwise_cons] at h
    obtain ⟨hd, hrest⟩ := h
    simp only [updateOneUpsert]
    split
    · rename_i heq
      rw [atMostOnePerTicker, List.pairwise_cons]
      exact ⟨fun b hb => hdoc ▸ heq ▸ hd b hb, hrest⟩
    · rename_i hne
      rw [atMostOnePerTicker, List.pairwise_cons]
      refine ⟨fun b hb => ?_, ih hrest⟩
      rcases mem_updateOneUpsert rest key doc b hb with hb | hb
      · exact hd b hb
      · rw [hb, hdoc]
        exact hne
    
theorem updateOneUpsert_find (coll : List AnalysisDoc) (key : String)
    (doc : AnalysisDoc) (hdoc : doc.ticker = key) :
    (updateOneUpsert coll key doc).find? (fun d => d.ticker == key)
      = some doc := by
  induction coll with
  | nil => simp [updateOneUpsert, List.find?, hdoc]
  | cons d rest ih =>
    simp only [updateOneUpsert]
    split
    · simp [List.find?, hdoc]
    · rename_i hne
      rw [List.find?_cons_of_neg _ (by simp [hne])]
      exact ih

theorem updateOneUpsert_count (coll : List AnalysisDoc) (key : String)
    (doc : AnalysisDoc) (hdoc : doc.ticker = key)
    (h : atMostOnePerTicker coll) :
    ((updateOneUpsert coll key doc).filter
      (fun d => d.ticker == key)).length = 1 := by
  induction coll with
  | nil => simp [updateOneUpsert, List.filter, hdoc]
  | cons d rest ih =>
    rw [atMostOnePerTicker, List.pairwise_cons] at h
    obtain ⟨hd, hrest⟩ := h
    simp only [updateOneUpsert]
    split
    · rename_i heq
      have hnone : rest.filter (fun d => d.ticker == key) = [] := by
        rw [List.filter_eq_nil_iff]
        intro b hb
        simp only [beq_iff_eq]
        exact heq ▸ (hd b hb).symm
      simp [List.filter, hdoc, hnone]
    · rename_i hne
      rw [List.filter_cons_of_neg (by simp [hne])]
      exact ih hrest

/-- C5: `save_analysis` is an upsert keyed by the uppercased ticker that
replaces the entire prior record: the at-most-one-record-per-ticker
invariant is preserved, afterwards the record found for the ticker is
exactly the freshly built document (every field, including `error`, comes
from the new data — nothing of the prior record survives), and exactly one
record for the ticker exists. -/
theorem save_analysis_upsert (ticker : String) (d : AnalysisData) (now : ℕ)
    (coll : List AnalysisDoc) (h : atMostOnePerTicker coll) :
    atMostOnePerTicker (save_analysis ticker d now coll) ∧
    ((save_analysis ticker d now coll).find?
      (fun doc => doc.ticker == pyUpper ticker)
        = some (mkDocument ticker now d)) ∧
    ((save_analysis ticker d now coll).filter
      (fun doc => doc.ticker == pyUpper ticker)).length = 1 := by
  refine ⟨updateOneUpsert_pairwise coll (pyUpper ticker) _ rfl h,
    updateOneUpsert_find coll (pyUpper ticker) _ rfl,
    updateOneUpsert_count coll (pyUpper ticker) _ rfl h⟩

/-- Witness for C5: overwriting a prior record (with a stale error) for
`aapl` leaves a single record holding exactly the new fields. -/
theorem save_analysis_upsert_witness :
    atMostOnePerTicker (save_analysis "aapl"
      ⟨some "q2", some "f2", some "n2", some "r2", none⟩ 200
      [⟨"AAPL", 100, "q1", "f1", "n1", "r1", some "boom"⟩]) ∧
    ((save_analysis "aapl"
      ⟨some "q2", some "f2", some "n2", some "r2", none⟩ 200
      [⟨"AAPL", 100, "q1", "f1", "n1", "r1", some "boom"⟩]).find?
        (fun doc => doc.ticker == pyUpper "aapl")
        = some (mkDocument "aapl"
            200 ⟨some "q2", some "f2", some "n2", some "r2", none⟩)) ∧
    ((save_analysis "aapl"
      ⟨some "q2", some "f2", some "n2", some "r2", none⟩ 200
      [⟨"AAPL", 100, "q1", "f1", "n1", "r1", some "boom"⟩]).filter
        (fun doc => doc.ticker == pyUpper "aapl")).length = 1 :=
  save_analysis_upsert "aapl" ⟨some "q2", some "f2", some "n2", some "r2", none⟩
    200 [⟨"AAPL", 100, "q1", "f1", "n1", "r1", some "boom"⟩]
    (by simp [atMostOnePerTicker])

/-! ## The `/message` handler (`kakao.py` lines 399–424) -/

/-- The uncaught Python exception of the read path: subscripting the
`None` returned by `get_analysis` (`analysis_data['final']`,
`kakao.py` line 407). -/
inductive PyErr where
  | noneNotSubscriptable
  deriving DecidableEq, Repr

/-- The loop body of `get_message`: for each of the user's tickers, fetch
the analysis within 24 hours and append either the final text or the
still-processing line.  When `get_analysis` returns `None` the subscript
raises, and no `try`/`except` surrounds the handler. -/
def get_message_loop (now : ℕ) (coll : List AnalysisDoc) :
    List String → String → Except PyErr String
  | [], output => .ok output
  | t :: rest, output =>
    match get_analysis t 24 now coll with
    | none => .error .noneNotSubscriptable
    | some r =>
      if pyStrip r.final ≠ "" then
        get_message_loop now coll rest
          (output ++ t ++ " 분석 결과: " ++ r.final
            ++ "--------------------------------\n\n")
      else
        get_message_loop now coll rest
          (output ++ t ++ " 분석 결과가 아직 준비되지 않았습니다.\n\n")

/-- The `/message` handler body applied to the user's watchlist: an
`Except.error` is an unhandled Python exception escaping the handler. -/
def get_message (userTickers : List String) (now : ℕ)
    (coll : List AnalysisDoc) : Except PyErr String :=
  get_message_loop now coll userTickers ""

/-- C10 (code bug): for a user watching `AAPL` when no analysis record is
stored, `get_analysis` returns `None` and the handler's
`analysis_data['final']` subscript raises `TypeError`, which nothing in
`get_message` catches — an unhandled exception reaches the caller instead
of the still-processing response; by contrast, when a record exists whose
final text is empty, the handler does produce the still-processing line,
which shows the crash is specific to the absent-record path. -/
theorem get_message_crashes_on_missing_record :
    get_message ["AAPL"] 1000 [] = .error .noneNotSubscriptable ∧
    get_message ["AAPL"] 1000 [⟨"AAPL", 1000, "", "", "", "", none⟩]
      = .ok "AAPL 분석 결과가 아직 준비되지 않았습니다.\n\n" :=
  ⟨rfl, rfl⟩

/-! ## Concurrent refresh admission (`kakao.py`
`process_ticker_analysis_callback`, lines 642–672, and `analyze_stock`,
lines 493–500)

A refresh request for a ticker performs, in order: an admission check
(`await get_all_unique_tickers()` / `await AnalysisDB.get_analysis(...)`
reading shared state and computing `analysis_needed`) and then, if
admitted, the pipeline `run_full_analysis_background` ending in the cache
`put` (`save_analysis`).  Every `await` is a suspension point of the
event loop, so the actions of two requests for the same ticker may
interleave.  The code keeps no in-flight marker: the admission check
reads only the cache, which is written only when a pipeline completes.
We model two requests for one ticker; `fresh` is whether the cache holds
a fresh completed record, `check i` computes request `i`'s
`analysis_needed` from the cache, and `run i` executes the pipeline and
its put when admitted (an abstraction that is exact for the property
measured: how many pipelines and puts execute). -/

/-- An atomic action of one of the two refresh requests, separated at the
`await` suspension points. -/
inductive RefreshAct where
  | check (i : Fin 2)
  | run (i : Fin 2)
  deriving DecidableEq, Repr

/-- Shared state: the cache freshness flag, each request's computed
admission decision, and the pipeline / cache-put counters. -/
structure RefreshState where
  fresh : Bool
  admitted : Fin 2 → Bool
  pipelines : ℕ
  puts : ℕ

/-- One atomic step: `check i` stores `analysis_needed` (no fresh
completed record in the cache); `run i` runs the pipeline and performs the
`save_analysis` put when the request was admitted, else does nothing. -/
def refreshStep (s : RefreshState) : RefreshAct → RefreshState
  | .check i =>
    { s with admitted := fun j => if j = i then !s.fresh else s.admitted j }
  | .run i =>
    if s.admitted i then
      { s with pipelines := s.pipelines + 1, puts := s.puts + 1,
               fresh := true }
    else s

/-- Run a schedule of atomic actions. -/
def runRefresh (acts : List RefreshAct) (s : RefreshState) : RefreshState :=
  acts.foldl refreshStep s

/-- No record yet, no admission decisions, no work done. -/
def initRefresh : RefreshState := ⟨false, fun _ => false, 0, 0⟩

/-- C4 (code bug): with no in-flight marker in the code, the interleaving
in which both requests' admission checks run before either pipeline's
cache put (both checks see no fresh record) admits both requests: two
pipelines run and two puts occur, not the claimed exactly-one.  The
serialized schedule shows the admission check does de-duplicate once the
first put has landed, so the failure is specific to the in-flight
window. -/
theorem refresh_double_admission :
    (runRefresh [.check 0, .check 1, .run 0, .run 1] initRefresh).pipelines
      = 2 ∧
    (runRefresh [.check 0, .check 1, .run 0, .run 1] initRefresh).puts
      = 2 ∧
    (runRefresh [.check 0, .run 0, .check 1, .run 1] initRefresh).pipelines
      = 1 ∧
    (runRefresh [.check 0, .run 0, .check 1, .run 1] initRefresh).puts
      = 1 := by
  refine ⟨rfl, rfl, rfl, rfl⟩

/-! ## RSI (`backend.py` `get_technical_indicators`, lines 99–132)

`delta = data['Close'].diff()` has a leading `NaN`; `delta.where(delta >
0, 0)` replaces it by `0` (the comparison with `NaN` is false), so the
gain and loss series have an artificial leading `0` followed by the
clipped differences, and contain no `NaN`.  The division `gain / loss`
follows IEEE float semantics: positive / zero is an infinity and
zero / zero is `NaN`.  (With numpy's negative zero the zero loss is
`-0.0` and the quotient is `-inf`; `100 - 100/(1 + ±inf)` is `100` either
way, so the model's unsigned zero and single `inf` report the same RSI.) -/

/-- A float value in the RSI computation: a rational, `NaN`, or an
infinity. -/
inductive RVal where
  | num (q : ℚ)
  | nan
  | inf
  deriving DecidableEq, Repr

/-- The gain series `delta.where(delta > 0, 0)`: a leading `0` for the
`NaN` first difference, then the positive parts of the differences. -/
def gainList (closes : List ℚ) : List ℚ :=
  match closes with
  | [] => []
  | _ :: _ =>
    0 :: (List.zipWith (fun prev cur => cur - prev) closes closes.tail).map
          (fun d => if 0 < d then d else 0)

/-- The loss series `-delta.where(delta < 0, 0)`: a leading `0`, then the
negated negative parts of the differences. -/
def lossList (closes : List ℚ) : List ℚ :=
  match closes with
  | [] => []
  | _ :: _ =>
    0 :: (List.zipWith (fun prev cur => cur - prev) closes closes.tail).map
          (fun d => if d < 0 then -d else 0)

/-- `gain / loss` on the last rolling means (`NaN` when a window is not
filled): IEEE division with nonzero / zero an infinity and zero / zero
`NaN`. -/
def rsLast (g l : Option ℚ) : RVal :=
  match g, l with
  | some a, some b =>
    if b ≠ 0 then .num (a / b)
    else if a ≠ 0 then .inf
    else .nan
  | _, _ => .nan

/-- `rsi = 100 - (100 / (1 + rs))`.  In the code path `rs` is a quotient
of non-negative rolling means, so `1 + rs` is never `0`; the guard is
only there to keep the function total. -/
def rsiFromRs : RVal → RVal
  | .num r => if 1 + r = 0 then .nan else .num (100 - 100 / (1 + r))
  | .nan => .nan
  | .inf => .num 100

/-- The last RSI value of the series (`rsi.iloc[-1]`). -/
def rsiLast (closes : List ℚ) : RVal :=
  rsiFromRs (rsLast (rollingMeanLast 14 (gainList closes))
                    (rollingMeanLast 14 (lossList closes)))

/-- The `rsi` entry of the dict built by `get_technical_indicators`:
absent (`none`) only when the fetched candle series is empty (the early
`return {}`); otherwise the RSI series is as long as the data, hence
nonempty, so the `if not rsi.empty else "N/A"` fallback never fires and
the last RSI float is reported as-is. -/
def technicalRsi (closes : List ℚ) : Option RVal :=
  if closes.isEmpty then none else some (rsiLast closes)

theorem rollingMeanLast_some_le (w : ℕ) (xs : List ℚ) (v : ℚ)
    (h : rollingMeanLast w xs = some v) : w ≤ xs.length := by
  unfold rollingMeanLast windowLast at h
  split at h
  · rename_i hc
    exact hc.2
  · exact absurd h (by simp)

theorem gainList_length (closes : List ℚ) (h : closes ≠ []) :
    (gainList closes).length = closes.length := by
  cases closes with
  | nil => exact absurd rfl h
  | cons c cs =>
    simp [gainList, List.length_zipWith]

theorem lossList_length (closes : List ℚ) (h : closes ≠ []) :
    (lossList closes).length = closes.length := by
  cases closes with
  | nil => exact absurd rfl h
  | cons c cs =>
    simp [lossList, List.length_zipWith]

/-- C9 counterexample: a strictly increasing 16-day close series has a
zero 14-period average loss, yet the RSI computation reports the number
`100` (via the unguarded division producing an infinity), not the claimed
`"N/A"`/absent value — there is no division guard in the code. -/
theorem rsi_zero_loss_counterexample :
    technicalRsi [1, 2, 3, 4, 5, 6, 7, 8, 9, 10, 11, 12, 13, 14, 15, 16]
      = some (.num 100) := by
  norm_num [technicalRsi, rsiLast, rsLast, rsiFromRs, gainList, lossList,
    rollingMeanLast, windowLast, List.zipWith]

/-- C9 amended: the RSI entry is absent only when the fetched candle
series is empty (the early `return {}`); with a nonempty series shorter
than the 14-observation window the reported RSI is the float `NaN` (never
the number `0`, and never the string `"N/A"`); and when the 14-period
average loss is zero while the average gain is not, the unguarded
division produces an infinity and the reported RSI is the number `100` —
the zero-loss case is not guarded and is reported as a number, though
never as `0`. -/
theorem rsi_division_unguarded (closes : List ℚ) (g : ℚ)
    (hg : rollingMeanLast 14 (gainList closes) = some g)
    (hgne : g ≠ 0)
    (hl : rollingMeanLast 14 (lossList closes) = some 0) :
    technicalRsi closes = some (.num 100) ∧
    (∀ xs : List ℚ, xs ≠ [] → xs.length < 14 →
      technicalRsi xs = some .nan) ∧
    technicalRsi [] = none := by
  refine ⟨?_, fun xs hne hlen => ?_, rfl⟩
  · have hlen : 14 ≤ (gainList closes).length :=
      rollingMeanLast_some_le 14 (gainList closes) g hg
    have hne : closes ≠ [] := by
      intro hcl
      rw [hcl] at hlen
      simp [gainList] at hlen
    rw [technicalRsi, if_neg (by simp [hne])]
    rw [rsiLast, hg, hl, rsLast]
    norm_num [hgne, rsiFromRs]
  · have hgl : rollingMeanLast 14 (gainList xs) = none := by
      unfold rollingMeanLast windowLast
      rw [if_neg]
      · rfl
      · rw [gainList_length xs hne]
        omega
    rw [technicalRsi, if_neg (by simp [hne])]
    cases hll : rollingMeanLast 14 (lossList xs) <;>
      simp [rsiLast, hgl, hll, rsLast, rsiFromRs]

/-- Witness for C9's amended statement: a strictly increasing 15-day
series (zero average loss, positive average gain) reports `100`; a 3-day
series (insufficient history) reports `NaN`; the empty series alone
yields an absent RSI. -/
theorem rsi_division_unguarded_witness :
    technicalRsi [1, 2, 3, 4, 5, 6, 7, 8, 9, 10, 11, 12, 13, 14, 15]
      = some (.num 100) ∧
    technicalRsi [1, 2, 3] = some .nan ∧
    technicalRsi [] = none := by
  have h := rsi_division_unguarded
    [1, 2, 3, 4, 5, 6, 7, 8, 9, 10, 11, 12, 13, 14, 15] 1
    (by norm_num [gainList, rollingMeanLast, windowLast, List.zipWith])
    (by norm_num)
    (by norm_num [lossList, rollingMeanLast, windowLast, List.zipWith])
  exact ⟨h.1, h.2.1 [1, 2, 3] (by simp) (by simp), h.2.2⟩

end AlphaTalk
